import Mathlib

/-!
Verification of the directory-dump web server in `src/app.py`.

The development shallowly embeds the core pipeline of the program:
`read_files` (directory scanning), `WebFile.generate_html` (per-file card
rendering driven by the detected MIME type), and the `index` route
(scan, sort, render, concatenate).

Modelling conventions:
- The filesystem seen by one request is a finite tree of entries.  A regular
  file carries its raw byte content (`List Nat`, each < 256), the MIME type
  the external `magic` library reports for it (the `magic` library is an
  external collaborator, so its answer is data of the model, not recomputed),
  and whether opening the file succeeds (`readable`; opening an unreadable
  file raises an uncaught `OSError`-family exception in Python, modelled as
  `Except.error`).
- Paths are lists of path components relative to the scan root, matching
  `pathlib` paths, which compare lexicographically by their component tuple.
- `vprint` prints its message only when the `--verbose` flag is set; it is
  modelled as returning the list of lines printed.
- Python text-mode reading decodes UTF-8 strictly and translates universal
  newlines; `utf8Decode` and `univNewlines` model this.  A failed decode
  makes `decodeText` return `none` (Python raises `UnicodeDecodeError`,
  which `generate_html` catches).
- Python string truthiness (`if preview:`) is true exactly for nonempty
  strings; `pyTruthy` models this.
-/

/-- Snapshot of a regular file: raw bytes, the MIME type detected for it by
the external `magic` library, and whether opening it succeeds. -/
structure FileData where
  bytes : List Nat
  mime : String
  readable : Bool
deriving DecidableEq, Repr

/-- One directory entry: a regular file, a subdirectory, or anything that is
neither (socket, broken symlink, ...), which `read_files` skips with a
diagnostic. -/
inductive Entry where
  | file (name : String) (data : FileData)
  | dir (name : String) (children : List Entry)
  | other (name : String)

/-- The object the configured scan directory path points at: a directory
with children, an existing non-directory, or nothing at all.  `Path.is_dir`
is false for the latter two, so `read_files` raises `TypeError` on them. -/
inductive Root where
  | dir (children : List Entry)
  | nondir
  | missing

/-- Uncaught Python exceptions that abort a request: the `TypeError` that
`read_files` raises for a non-directory root, and the `OSError` family
raised when `magic.from_file` or `open` hits an unreadable file (only
`UnicodeDecodeError` is caught in `generate_html`). -/
inductive AppError where
  | typeError (msg : String)
  | osError (msg : String)
deriving DecidableEq, Repr

/-- The fixed page header `HTML_HEAD` of `src/app.py`. -/
def HTML_HEAD : String :=
  "\n<!DOCTYPE html>\n<html lang=\"en\">\n<head>\n<meta charset=\"UTF-8\">\n<meta name=\"viewport\" content=\"width=device-width, initial-scale=1.0\">\n<title>Web dump</title>\n<style>\n    .scroll-box \x7b\n        width: 300px; /* Set the width of the box */\n        height: 200px; /* Set the height of the box */\n        overflow: auto; /* Enable scrolling */\n        border: 1px solid #ccc; /* Add border for styling */\n        padding: 10px; /* Add padding for content spacing */\n    \x7d\n    .collapsible \x7b\n        cursor: pointer;\n    \x7d\n    .content \x7b\n        margin-top:10px;\n        display: none;\n        overflow: hidden;\n    \x7d\n    img \x7b\n        max-height:\n        width: auto;\n    \x7d\n    video \x7b\n        max-height: 300px;\n        width: auto;\n    \x7d\n</style>\n<link href=\"https://cdn.jsdelivr.net/npm/bootstrap@5.3.0-alpha1/dist/css/bootstrap.min.css\" rel=\"stylesheet\">\n</head>\n<body class=\"bg-secondary-subtle\">\n<nav class=\"navbar navbar-dark bg-secondary\" style=\"margin-bottom: 20px;\">\n  <a class=\"navbar-brand\" style=\"margin-left: 10px;\" href=\"#\">Dump to web</a>\n</nav>\n"

/-- The fixed page footer `HTML_FOOT` of `src/app.py`. -/
def HTML_FOOT : String :=
  "\n<script>\n    var coll = document.getElementsByClassName(\"collapsible\");\n    var i;\n\n    for (i = 0; i < coll.length; i++) \x7b\n        coll[i].addEventListener(\"click\", function() \x7b\n            this.classList.toggle(\"active\");\n            var content = this.nextElementSibling;\n            if (content.style.display === \"block\") \x7b\n                this.textContent = \"Open\";\n                content.style.display = \"none\";\n            \x7d else \x7b\n                this.textContent = \"Close\";\n                content.style.display = \"block\";\n            \x7d\n        \x7d);\n    \x7d\n</script>\n</body>\n</html>\n"

/-- The MIME types rendered as an embedded video (`VIDEO_MIME_TYPES`). -/
def VIDEO_MIME_TYPES : List String :=
  ["video/mp4", "video/webm", "video/ogg"]

/-- The MIME types rendered as an embedded image (`IMAGE_MIME_TYPES`). -/
def IMAGE_MIME_TYPES : List String :=
  ["image/jpeg", "image/png", "image/gif", "image/svg+xml", "image/webp",
   "image/bmp", "image/x-icon", "image/tiff", "image/jp2"]

/-- Model of `vprint`: the list of lines it prints (one when `--verbose` is
set, none otherwise). -/
def vprint (verbose : Bool) (message : String) : List String :=
  if verbose then [message] else []

/-- Model of `get_html_link`. -/
def get_html_link (file_path : String) (file_type : String) : String :=
  "<a class=\"link-primary\" href=\"" ++ file_path ++ "\" target=\"_blank\">"
    ++ file_path ++ "</a>" ++ " <sub>(" ++ file_type ++ ")</sub>"

/-- Model of `get_html_text_plain`. -/
def get_html_text_plain (text : String) : String :=
  "<div class=\"scroll-box\">" ++ text ++ "</div>"

/-- Model of `get_html_image`. -/
def get_html_image (file_path : String) : String :=
  "<img src=\"" ++ file_path ++ "\" alt=\"Image Description\">"

/-- Model of `get_html_video`. -/
def get_html_video (file_path : String) (video_type : String) : String :=
  "<video controls>"
    ++ ("<source src=\"" ++ file_path ++ "\" type=\"" ++ video_type ++ "\">")
    ++ "</video>"

/-- Rendering of a relative `pathlib` path as a string (components joined
by slashes), as Python f-strings do. -/
def pathStr (p : List String) : String :=
  String.intercalate "/" p

/-- Strict UTF-8 decoding of a byte list, as Python `codecs` does for
`encoding='utf-8'`: rejects truncated sequences, stray continuation bytes,
overlong encodings, surrogate code points and code points above U+10FFFF. -/
def utf8Decode : List Nat → Option (List Char)
  | [] => some []
  | b :: bs =>
    if b < 0x80 then
      (utf8Decode bs).map (fun cs => Char.ofNat b :: cs)
    else if b < 0xC2 then
      none
    else if b < 0xE0 then
      match bs with
      | b1 :: bs1 =>
        if 0x80 ≤ b1 ∧ b1 < 0xC0 then
          (utf8Decode bs1).map (fun cs => Char.ofNat ((b - 0xC0) * 0x40 + (b1 - 0x80)) :: cs)
        else none
      | [] => none
    else if b < 0xF0 then
      match bs with
      | b1 :: b2 :: bs2 =>
        if (0x80 ≤ b1 ∧ b1 < 0xC0) ∧ (0x80 ≤ b2 ∧ b2 < 0xC0) then
          let cp := (b - 0xE0) * 0x1000 + (b1 - 0x80) * 0x40 + (b2 - 0x80)
          if 0x800 ≤ cp ∧ (cp < 0xD800 ∨ 0xDFFF < cp) then
            (utf8Decode bs2).map (fun cs => Char.ofNat cp :: cs)
          else none
        else none
      | _ => none
    else if b < 0xF5 then
      match bs with
      | b1 :: b2 :: b3 :: bs3 =>
        if (0x80 ≤ b1 ∧ b1 < 0xC0) ∧ (0x80 ≤ b2 ∧ b2 < 0xC0) ∧ (0x80 ≤ b3 ∧ b3 < 0xC0) then
          let cp := (b - 0xF0) * 0x40000 + (b1 - 0x80) * 0x1000 + (b2 - 0x80) * 0x40 + (b3 - 0x80)
          if 0x10000 ≤ cp ∧ cp ≤ 0x10FFFF then
            (utf8Decode bs3).map (fun cs => Char.ofNat cp :: cs)
          else none
        else none
      | _ => none
    else none

/-- Universal-newline translation performed by Python text-mode reading:
CRLF and lone CR both become LF. -/
def univNewlines : List Char → List Char
  | [] => []
  | '\r' :: '\n' :: cs => '\n' :: univNewlines cs
  | '\r' :: cs => '\n' :: univNewlines cs
  | c :: cs => c :: univNewlines cs

/-- Model of `open(path, 'r', encoding='utf-8').read()`: strict UTF-8 decode
followed by universal-newline translation; `none` models the raised
`UnicodeDecodeError`. -/
def decodeText (bytes : List Nat) : Option String :=
  (utf8Decode bytes).map (fun cs => String.mk (univNewlines cs))

/-- Python truthiness of the `preview` variable: `None` and the empty string
are falsy, every other string is truthy. -/
def pyTruthy : Option String → Bool
  | none => false
  | some s => s.length != 0

/-- The html and printed diagnostics that `WebFile.generate_html` computes
for one file once `magic.from_file` and any `open` succeed: the card shell,
the link and type label, and the `match`-selected optional preview.  The
first component is the final `self.html`, the second the `vprint` output. -/
def file_card (rootStr : String) (rel : List String) (d : FileData) (verbose : Bool) :
    String × List String :=
  let file_type := d.mime
  let html0 := "<div class=\"card bg-primary-subtle\" style=\"width:90%; margin:0 auto;\">"
    ++ "<div class=\"card-body\">" ++ get_html_link (pathStr rel) file_type
  let pv : Option String × List String :=
    if file_type = "text/plain" then
      match decodeText d.bytes with
      | some t => (some (get_html_text_plain t), [])
      | none => (none, vprint verbose ("Failed to decode " ++ rootStr ++ "/" ++ pathStr rel))
    else if VIDEO_MIME_TYPES.contains file_type then
      (some (get_html_video (pathStr rel) file_type), [])
    else if IMAGE_MIME_TYPES.contains file_type then
      (some (get_html_image (pathStr rel)), [])
    else
      (none, [])
  let html1 :=
    if pyTruthy pv.1 then
      html0 ++ " <button class=\"collapsible btn btn-secondary btn-sm\">Open</button>"
        ++ "<div class=\"content\">" ++ pv.1.getD "" ++ "</div>"
    else html0
  (html1 ++ "</div></div><br/>", pv.2)

/-- Model of `WebFile.generate_html`.  `magic.from_file` (and, for
`text/plain`, `open`) raise an uncaught `OSError`-family exception when the
file cannot be read; only `UnicodeDecodeError` is caught inside the method,
so an unreadable file aborts with `Except.error` while every readable file
produces its card. -/
def generate_html (rootStr : String) (rel : List String) (d : FileData) (verbose : Bool) :
    Except AppError (String × List String) :=
  if d.readable then
    Except.ok (file_card rootStr rel d verbose)
  else
    Except.error (AppError.osError ("unreadable file: " ++ rootStr ++ "/" ++ pathStr rel))

/-- Recursion of `read_files` over the children of a directory sitting at
relative path `base`: regular files are appended, subdirectories are spliced
in recursively when `recursive` is set, and everything else is skipped with
a `vprint` diagnostic.  Each discovered path is paired with the snapshot
data of the file it denotes (the Python code keeps only the `Path` and
reopens it during rendering against the same, unchanged filesystem).  The
second component is the printed diagnostics, in order. -/
def read_files_aux (recursive verbose : Bool) (rootStr : String) (base : List String) :
    List Entry → List (List String × FileData) × List String
  | [] => ([], [])
  | Entry.file n d :: rest =>
    ((base ++ [n], d) :: (read_files_aux recursive verbose rootStr base rest).1,
     (read_files_aux recursive verbose rootStr base rest).2)
  | Entry.dir n ch :: rest =>
    ((if recursive then (read_files_aux recursive verbose rootStr (base ++ [n]) ch).1 else [])
       ++ (read_files_aux recursive verbose rootStr base rest).1,
     (if recursive then (read_files_aux recursive verbose rootStr (base ++ [n]) ch).2 else [])
       ++ (read_files_aux recursive verbose rootStr base rest).2)
  | Entry.other n :: rest =>
    ((read_files_aux recursive verbose rootStr base rest).1,
     vprint verbose (rootStr ++ "/" ++ pathStr (base ++ [n]) ++ " is neither file nor directory, ignoring")
       ++ (read_files_aux recursive verbose rootStr base rest).2)

/-- Model of `read_files`: raises `TypeError` unless the scan root is an
existing directory, otherwise walks its children. -/
def read_files (root : Root) (rootStr : String) (recursive verbose : Bool) :
    Except AppError (List (List String × FileData) × List String) :=
  match root with
  | Root.dir children => Except.ok (read_files_aux recursive verbose rootStr [] children)
  | _ => Except.error (AppError.typeError (rootStr ++ " is not a directory"))

/-- Boolean strict lexicographic comparison of character lists, by code
point, as Python compares strings. -/
def charsLT : List Char → List Char → Bool
  | [], [] => false
  | [], _ :: _ => true
  | _ :: _, [] => false
  | a :: as, b :: bs => if a < b then true else if b < a then false else charsLT as bs

/-- Boolean strict comparison of strings (code-point lexicographic). -/
def stringLT (a b : String) : Bool :=
  charsLT a.data b.data

/-- Boolean non-strict lexicographic comparison of paths by their component
tuples, the order `sorted` uses on `pathlib` paths.  All scanned paths share
the scan-root prefix, so comparing root-relative component lists agrees with
comparing the absolute paths. -/
def pathLE : List String → List String → Bool
  | [], _ => true
  | _ :: _, [] => false
  | a :: as, b :: bs =>
    if stringLT a b then true else if stringLT b a then false else pathLE as bs

/-- Model of Python `sorted(file_store)`: a stable sort of the scanned files
by path (stable sorting by a total order has a unique result, so any stable
sort models `sorted`). -/
def sortFiles (l : List (List String × FileData)) : List (List String × FileData) :=
  List.insertionSort (fun a b => pathLE a.1 b.1 = true) l

/-- The rendering loop of the `index` route: each file in order contributes
`wf.get_html()` to the page and its diagnostics to the log; an uncaught
exception from `generate_html` aborts the whole request. -/
def render_all (rootStr : String) (verbose : Bool) :
    List (List String × FileData) → Except AppError (String × List String)
  | [] => Except.ok ("", [])
  | (p, d) :: rest =>
    match generate_html rootStr p d verbose with
    | Except.error e => Except.error e
    | Except.ok (h, ds) =>
      match render_all rootStr verbose rest with
      | Except.error e => Except.error e
      | Except.ok (hs, dss) => Except.ok (h ++ hs, ds ++ dss)

/-- Model of the `index` route: scan, sort by path, render every card in
order between the fixed header and footer.  The first component of a
successful result is the returned page, the second the diagnostics printed
while handling the request. -/
def index (root : Root) (rootStr : String) (recursive verbose : Bool) :
    Except AppError (String × List String) :=
  match read_files root rootStr recursive verbose with
  | Except.error e => Except.error e
  | Except.ok (file_store, scanDiags) =>
    match render_all rootStr verbose (sortFiles file_store) with
    | Except.error e => Except.error e
    | Except.ok (body, renderDiags) =>
      Except.ok (HTML_HEAD ++ body ++ HTML_FOOT, scanDiags ++ renderDiags)

/-! ## Spec-side definitions -/

/-- Whether an entry is a regular file. -/
def Entry.isFile : Entry → Bool
  | Entry.file _ _ => true
  | _ => false

/-- The name of an entry within its directory. -/
def Entry.name : Entry → String
  | Entry.file n _ => n
  | Entry.dir n _ => n
  | Entry.other n => n

/-- Whether an entry, if it is a regular file, can be opened. -/
def entryReadable : Entry → Bool
  | Entry.file _ d => d.readable
  | _ => true

/-- The scanned-file record an immediate child contributes below `base`, if
it is a regular file. -/
def entryFlat (base : List String) : Entry → Option (List String × FileData)
  | Entry.file n d => some (base ++ [n], d)
  | _ => none

/-- Independent description of the transitive file set of a tree, by
recursion on the relative path: `isFileAt es p d` holds when following the
components of `p` from the children list `es` reaches a regular file with
snapshot `d`. -/
def isFileAt : List Entry → List String → FileData → Prop
  | _, [], _ => False
  | es, [n], d => Entry.file n d ∈ es
  | es, n :: q, d => ∃ ch, Entry.dir n ch ∈ es ∧ isFileAt ch q d

/-- Subtree well-formedness of all directory children in a list: within any
directory the sibling names are distinct, as a real filesystem guarantees. -/
def childrenOK : List Entry → Prop
  | [] => True
  | Entry.dir _ ch :: rest => ((ch.map Entry.name).Nodup ∧ childrenOK ch) ∧ childrenOK rest
  | _ :: rest => childrenOK rest

/-- Well-formedness of a directory tree given by its children list: sibling
names are distinct at every level. -/
def wfTree (es : List Entry) : Prop :=
  (es.map Entry.name).Nodup ∧ childrenOK es

/-- Modelled from the spec: the HTML-escaping of one character that the spec
requires for text embedded into the page (the escaping `html.escape` would
perform); the program under `src/` does not perform it. -/
def htmlEscapeChar (c : Char) : List Char :=
  if c = '&' then "&amp;".data
  else if c = '<' then "&lt;".data
  else if c = '>' then "&gt;".data
  else if c.toNat = 34 then "&quot;".data
  else if c.toNat = 39 then "&#x27;".data
  else [c]

/-- Modelled from the spec: HTML-escaping of a string, applied characterwise. -/
def htmlEscape (s : String) : String :=
  String.mk ((s.data.map htmlEscapeChar).flatten)

/-- Concatenation of a list of page fragments in order. -/
def concatAll (l : List String) : String :=
  l.foldr (fun a b => a ++ b) ""

/-- The card a file produces when its preview branch yields a payload:
shell, link and type label, toggle button, and the payload in a collapsible
content block. -/
def card_with_preview (relS : String) (mime : String) (pv : String) : String :=
  "<div class=\"card bg-primary-subtle\" style=\"width:90%; margin:0 auto;\">"
    ++ "<div class=\"card-body\">" ++ get_html_link relS mime
    ++ " <button class=\"collapsible btn btn-secondary btn-sm\">Open</button>"
    ++ "<div class=\"content\">" ++ pv ++ "</div>"
    ++ "</div></div><br/>"

/-- The card a file produces when its preview branch yields no payload: only
the shell with the link and type label. -/
def card_no_preview (relS : String) (mime : String) : String :=
  "<div class=\"card bg-primary-subtle\" style=\"width:90%; margin:0 auto;\">"
    ++ "<div class=\"card-body\">" ++ get_html_link relS mime
    ++ "</div></div><br/>"

/-- Model of `Path.is_dir()` on the scan root. -/
def Root.is_dir : Root → Bool
  | Root.dir _ => true
  | _ => false

/-- A directory entry in a filesystem that may contain symlinked
directories: a symlink to a directory satisfies `is_dir()`, so `read_files`
follows it exactly like a plain subdirectory.  Directories are nodes of a
graph (indexed by `Nat`) instead of a tree, so a child can point back at an
ancestor. -/
inductive CChild where
  | cfile (name : String) (d : FileData)
  | cdir (name : String) (target : Nat)
  | cother (name : String)

/-- Fuel-instrumented form of the recursion of `read_files` (with
`recursive=True`) over a filesystem graph `fs` that may contain symlink
cycles; the branch structure per child is exactly that of `read_files` in
`src/app.py`, which keeps no visited set and no depth bound.  A result of
`none` means the recursion has not completed within `fuel` nested calls;
termination of the real code on an input is the existence of a fuel on
which the result is `some`. -/
def scan_fuel (fs : Nat → List CChild) : Nat → List CChild → Option (List (List String))
  | _, [] => some []
  | fuel, CChild.cfile n _ :: rest => (scan_fuel fs fuel rest).map (fun l => [n] :: l)
  | fuel, CChild.cdir n tgt :: rest =>
    match fuel with
    | 0 => none
    | fuel1 + 1 =>
      match scan_fuel fs fuel1 (fs tgt), scan_fuel fs (fuel1 + 1) rest with
      | some sub, some r => some (sub.map (fun q => n :: q) ++ r)
      | _, _ => none
  | fuel, CChild.cother _ :: rest => scan_fuel fs fuel rest
termination_by fuel l => (fuel, l.length)

/-! ## Order lemmas for the path comparison -/

theorem charsLT_irrefl (a : List Char) : charsLT a a = false := by
  induction a with
  | nil => rfl
  | cons c cs ih => simp [charsLT, lt_irrefl, ih]

theorem charsLT_asymm {a b : List Char} (h : charsLT a b = true) : charsLT b a = false := by
  induction a generalizing b with
  | nil =>
    cases b with
    | nil => simp [charsLT] at h
    | cons y ys => simp [charsLT]
  | cons x xs ih =>
    cases b with
    | nil => simp [charsLT] at h
    | cons y ys =>
      by_cases hxy : x < y
      · have hyx : ¬ y < x := lt_asymm hxy
        simp [charsLT, hxy, hyx] at h ⊢
      · by_cases hyx : y < x
        · simp [charsLT, hxy, hyx] at h
        · simp [charsLT, hxy, hyx] at h ⊢
          exact ih h

theorem charsLT_eq_of_not {a b : List Char} (h1 : charsLT a b = false)
    (h2 : charsLT b a = false) : a = b := by
  induction a generalizing b with
  | nil =>
    cases b with
    | nil => rfl
    | cons y ys => simp [charsLT] at h1
  | cons x xs ih =>
    cases b with
    | nil => simp [charsLT] at h2
    | cons y ys =>
      by_cases hxy : x < y
      · simp [charsLT, hxy] at h1
      · by_cases hyx : y < x
        · simp [charsLT, hyx, lt_asymm hyx] at h2
        · have hx : x = y := le_antisymm (not_lt.mp hyx) (not_lt.mp hxy)
          subst hx
          simp [charsLT, lt_irrefl] at h1 h2
          exact congrArg (x :: ·) (ih h1 h2)

theorem charsLT_trans {a b c : List Char} (h1 : charsLT a b = true)
    (h2 : charsLT b c = true) : charsLT a c = true := by
  induction a generalizing b c with
  | nil =>
    cases c with
    | nil =>
      cases b with
      | nil => simp [charsLT] at h1
      | cons y ys => simp [charsLT] at h2
    | cons z zs => simp [charsLT]
  | cons x xs ih =>
    cases b with
    | nil => simp [charsLT] at h1
    | cons y ys =>
      cases c with
      | nil => simp [charsLT] at h2
      | cons z zs =>
        by_cases hxy : x < y
        · by_cases hyz : y < z
          · simp [charsLT, lt_trans hxy hyz]
          · by_cases hzy : z < y
            · simp [charsLT, hyz, hzy] at h2
            · have : y = z := le_antisymm (not_lt.mp hzy) (not_lt.mp hyz)
              subst this
              simp [charsLT, hxy]
        · by_cases hyx : y < x
          · simp [charsLT, hxy, hyx] at h1
          · have : x = y := le_antisymm (not_lt.mp hyx) (not_lt.mp hxy)
            subst this
            by_cases hxz : x < z
            · simp [charsLT, hxz]
            · by_cases hzx : z < x
              · simp [charsLT, hzx, lt_asymm hzx] at h2
              · have : x = z := le_antisymm (not_lt.mp hzx) (not_lt.mp hxz)
                subst this
                simp [charsLT, lt_irrefl] at h1 h2 ⊢
                exact ih h1 h2

theorem stringLT_eq_of_not {a b : String} (h1 : stringLT a b = false)
    (h2 : stringLT b a = false) : a = b :=
  String.ext (charsLT_eq_of_not h1 h2)

theorem stringLT_irrefl (a : String) : stringLT a a = false :=
  charsLT_irrefl a.data

theorem stringLT_asymm {a b : String} (h : stringLT a b = true) : stringLT b a = false :=
  charsLT_asymm h

theorem stringLT_trans {a b c : String} (h1 : stringLT a b = true)
    (h2 : stringLT b c = true) : stringLT a c = true :=
  charsLT_trans h1 h2

theorem pathLE_refl (a : List String) : pathLE a a = true := by
  induction a with
  | nil => rfl
  | cons x xs ih => simp [pathLE, stringLT_irrefl, ih]

theorem pathLE_total (a b : List String) : pathLE a b = true ∨ pathLE b a = true := by
  induction a generalizing b with
  | nil => exact Or.inl rfl
  | cons x xs ih =>
    cases b with
    | nil => exact Or.inr rfl
    | cons y ys =>
      by_cases hxy : stringLT x y = true
      · left; simp [pathLE, hxy]
      · by_cases hyx : stringLT y x = true
        · right; simp [pathLE, hyx]
        · have hx : x = y :=
            stringLT_eq_of_not (Bool.eq_false_iff.mpr hxy) (Bool.eq_false_iff.mpr hyx)
          subst hx
          rcases ih ys with h | h
          · left; simp [pathLE, stringLT_irrefl, h]
          · right; simp [pathLE, stringLT_irrefl, h]

theorem pathLE_antisymm {a b : List String} (h1 : pathLE a b = true)
    (h2 : pathLE b a = true) : a = b := by
  induction a generalizing b with
  | nil =>
    cases b with
    | nil => rfl
    | cons y ys => simp [pathLE] at h2
  | cons x xs ih =>
    cases b with
    | nil => simp [pathLE] at h1
    | cons y ys =>
      by_cases hxy : stringLT x y = true
      · simp [pathLE, stringLT_asymm hxy, hxy] at h2
      · by_cases hyx : stringLT y x = true
        · simp [pathLE, hyx, stringLT_asymm hyx] at h1
        · have hx : x = y :=
            stringLT_eq_of_not (Bool.eq_false_iff.mpr hxy) (Bool.eq_false_iff.mpr hyx)
          subst hx
          simp [pathLE, stringLT_irrefl] at h1 h2
          exact congrArg (x :: ·) (ih h1 h2)

theorem pathLE_trans {a b c : List String} (h1 : pathLE a b = true)
    (h2 : pathLE b c = true) : pathLE a c = true := by
  induction a generalizing b c with
  | nil => rfl
  | cons x xs ih =>
    cases b with
    | nil => simp [pathLE] at h1
    | cons y ys =>
      cases c with
      | nil => simp [pathLE] at h2
      | cons z zs =>
        by_cases hxy : stringLT x y = true
        · by_cases hyz : stringLT y z = true
          · simp [pathLE, stringLT_trans hxy hyz]
          · by_cases hzy : stringLT z y = true
            · simp [pathLE, hyz, hzy] at h2
            · have : y = z :=
                stringLT_eq_of_not (Bool.eq_false_iff.mpr hyz) (Bool.eq_false_iff.mpr hzy)
              subst this
              simp [pathLE, hxy]
        · by_cases hyx : stringLT y x = true
          · simp [pathLE, hxy, hyx] at h1
          · have : x = y :=
              stringLT_eq_of_not (Bool.eq_false_iff.mpr hxy) (Bool.eq_false_iff.mpr hyx)
            subst this
            by_cases hxz : stringLT x z = true
            · simp [pathLE, hxz]
            · by_cases hzx : stringLT z x = true
              · simp [pathLE, stringLT_irrefl, hzx] at h2
                simp [pathLE, hzx, stringLT_asymm] at h2
              · have : x = z :=
                  stringLT_eq_of_not (Bool.eq_false_iff.mpr hxz) (Bool.eq_false_iff.mpr hzx)
                subst this
                simp [pathLE, stringLT_irrefl] at h1 h2 ⊢
                exact ih h1 h2

/-! ## Sorting, rendering and card lemmas -/

theorem sortFiles_perm (l : List (List String × FileData)) : (sortFiles l).Perm l :=
  List.perm_insertionSort _ l

theorem sortFiles_sorted (l : List (List String × FileData)) :
    List.Pairwise (fun a b => pathLE a.1 b.1 = true) (sortFiles l) := by
  haveI : IsTotal (List String × FileData) (fun a b => pathLE a.1 b.1 = true) :=
    ⟨fun a b => pathLE_total a.1 b.1⟩
  haveI : IsTrans (List String × FileData) (fun a b => pathLE a.1 b.1 = true) :=
    ⟨fun _ _ _ h1 h2 => pathLE_trans h1 h2⟩
  exact List.sorted_insertionSort _ l

theorem render_all_ok (S : String) (v : Bool) (l : List (List String × FileData))
    (h : ∀ x ∈ l, x.2.readable = true) :
    render_all S v l =
      Except.ok (concatAll (l.map fun x => (file_card S x.1 x.2 v).1),
        (l.map fun x => (file_card S x.1 x.2 v).2).flatten) := by
  induction l with
  | nil => simp [render_all, concatAll]
  | cons x rest ih =>
    obtain ⟨p, d⟩ := x
    have hd : d.readable = true := h _ (List.mem_cons_self _ _)
    have hrest := ih (fun y hy => h y (List.mem_cons_of_mem _ hy))
    simp [render_all, generate_html, hd, hrest, concatAll]

theorem render_all_err (S : String) (v : Bool) (l : List (List String × FileData))
    (h : ∃ x ∈ l, x.2.readable = false) :
    ∃ m, render_all S v l = Except.error (AppError.osError m) := by
  induction l with
  | nil =>
    rcases h with ⟨y, hy, _⟩
    exact absurd hy (List.not_mem_nil y)
  | cons x rest ih =>
    obtain ⟨p, d⟩ := x
    by_cases hd : d.readable = true
    · have hrest : ∃ y ∈ rest, y.2.readable = false := by
        rcases h with ⟨y, hy, hyr⟩
        rcases List.mem_cons.mp hy with heq | hy
        · subst heq
          rw [hd] at hyr
          exact absurd hyr (by simp)
        · exact ⟨y, hy, hyr⟩
      rcases ih hrest with ⟨m, hm⟩
      refine ⟨m, ?_⟩
      simp [render_all, generate_html, hd, hm]
    · refine ⟨"unreadable file: " ++ S ++ "/" ++ pathStr p, ?_⟩
      simp [render_all, generate_html, hd]

theorem get_html_text_plain_length (t : String) : (get_html_text_plain t).length ≠ 0 := by
  have h1 : ("<div class=\"scroll-box\">" : String).length = 24 := rfl
  simp [get_html_text_plain, String.length_append, h1]

theorem get_html_video_length (p t : String) : (get_html_video p t).length ≠ 0 := by
  have h1 : ("<video controls>" : String).length = 16 := rfl
  simp [get_html_video, String.length_append, h1]

theorem get_html_image_length (p : String) : (get_html_image p).length ≠ 0 := by
  have h1 : ("<img src=\"" : String).length = 10 := rfl
  simp [get_html_image, String.length_append, h1]

theorem file_card_text_ok (S : String) (rel : List String) (d : FileData) (v : Bool)
    (h1 : d.mime = "text/plain") {txt : String} (h2 : decodeText d.bytes = some txt) :
    file_card S rel d v =
      (card_with_preview (pathStr rel) "text/plain" (get_html_text_plain txt), []) := by
  have hp : pyTruthy (some (get_html_text_plain txt)) = true := by
    simp [pyTruthy, get_html_text_plain_length txt]
  simp [file_card, h1, h2, hp, card_with_preview]

theorem file_card_text_err (S : String) (rel : List String) (d : FileData) (v : Bool)
    (h1 : d.mime = "text/plain") (h2 : decodeText d.bytes = none) :
    file_card S rel d v =
      (card_no_preview (pathStr rel) "text/plain",
       vprint v ("Failed to decode " ++ S ++ "/" ++ pathStr rel)) := by
  simp [file_card, h1, h2, pyTruthy, card_no_preview]

theorem file_card_video (S : String) (rel : List String) (d : FileData) (v : Bool)
    (h : d.mime ∈ VIDEO_MIME_TYPES) :
    file_card S rel d v =
      (card_with_preview (pathStr rel) d.mime (get_html_video (pathStr rel) d.mime), []) := by
  have hne : d.mime ≠ "text/plain" := by
    simp [VIDEO_MIME_TYPES] at h
    rcases h with h | h | h <;> simp [h]
  have hp : pyTruthy (some (get_html_video (pathStr rel) d.mime)) = true := by
    simp [pyTruthy, get_html_video_length]
  simp [file_card, hne, h, hp, card_with_preview]

theorem file_card_image (S : String) (rel : List String) (d : FileData) (v : Bool)
    (h : d.mime ∈ IMAGE_MIME_TYPES) :
    file_card S rel d v =
      (card_with_preview (pathStr rel) d.mime (get_html_image (pathStr rel)), []) := by
  have hne : d.mime ≠ "text/plain" := by
    simp [IMAGE_MIME_TYPES] at h
    rcases h with h | h | h | h | h | h | h | h | h <;> simp [h]
  have hnv : d.mime ∉ VIDEO_MIME_TYPES := by
    simp [IMAGE_MIME_TYPES] at h
    rcases h with h | h | h | h | h | h | h | h | h <;> simp [h, VIDEO_MIME_TYPES]
  have hp : pyTruthy (some (get_html_image (pathStr rel))) = true := by
    simp [pyTruthy, get_html_image_length]
  simp [file_card, hne, hnv, h, hp, card_with_preview]

theorem file_card_no_preview (S : String) (rel : List String) (d : FileData) (v : Bool)
    (h1 : d.mime ≠ "text/plain") (h2 : d.mime ∉ VIDEO_MIME_TYPES)
    (h3 : d.mime ∉ IMAGE_MIME_TYPES) :
    file_card S rel d v = (card_no_preview (pathStr rel) d.mime, []) := by
  simp [file_card, h1, h2, h3, pyTruthy, card_no_preview]

theorem read_files_aux_flat (R V : Bool) (S : String) (b : List String) (es : List Entry)
    (h : ∀ e ∈ es, e.isFile = true) :
    read_files_aux R V S b es = (es.filterMap (entryFlat b), []) := by
  induction es with
  | nil => simp [read_files_aux]
  | cons e rest ih =>
    have hrest := ih (fun x hx => h x (List.mem_cons_of_mem _ hx))
    cases e with
    | file n d => simp [read_files_aux, entryFlat, hrest]
    | dir n ch => exact absurd (h _ (List.mem_cons_self _ _)) (by simp [Entry.isFile])
    | other n => exact absurd (h _ (List.mem_cons_self _ _)) (by simp [Entry.isFile])

/-! ## Claim theorems -/

/-- C10: for a scan root that exists, is a directory and has no children at
all, the index route returns exactly the fixed page header concatenated
with the fixed page footer, with no card blocks in between. -/
theorem C10_empty_directory_page (S : String) (r v : Bool) :
    index (Root.dir []) S r v = Except.ok (HTML_HEAD ++ HTML_FOOT, []) := by
  simp [index, read_files, read_files_aux, sortFiles, render_all, List.insertionSort]

/-- C8: for every scan root that does not exist or is not a directory,
read_files fails with the TypeError before producing any entries, and the
index route fails with the same error, so the failure is fatal to the whole
page build. -/
theorem C8_not_a_directory_fatal (root : Root) (S : String) (r v : Bool)
    (h : root.is_dir = false) :
    read_files root S r v = Except.error (AppError.typeError (S ++ " is not a directory")) ∧
    index root S r v = Except.error (AppError.typeError (S ++ " is not a directory")) := by
  cases root with
  | dir ch => simp [Root.is_dir] at h
  | nondir => exact ⟨rfl, rfl⟩
  | missing => exact ⟨rfl, rfl⟩

theorem C8_witness :
    Root.missing.is_dir = false ∧
      (read_files Root.missing "/data" true false =
          Except.error (AppError.typeError "/data is not a directory") ∧
        index Root.missing "/data" true false =
          Except.error (AppError.typeError "/data is not a directory")) :=
  ⟨rfl, C8_not_a_directory_fatal Root.missing "/data" true false rfl⟩

/-- C6: a readable file classified text/plain whose bytes are not valid
UTF-8 never raises: its card keeps the link and the type label, carries no
preview block, and the decode failure is recorded as a vprint diagnostic. -/
theorem C6_undecodable_text_no_preview (S : String) (rel : List String) (d : FileData)
    (v : Bool) (h1 : d.mime = "text/plain") (h2 : d.readable = true)
    (h3 : utf8Decode d.bytes = none) :
    generate_html S rel d v =
      Except.ok (card_no_preview (pathStr rel) "text/plain",
        vprint v ("Failed to decode " ++ S ++ "/" ++ pathStr rel)) := by
  have hdt : decodeText d.bytes = none := by simp [decodeText, h3]
  simp [generate_html, h2, file_card_text_err S rel d v h1 hdt]

theorem C6_witness :
    (FileData.mk [255] "text/plain" true).mime = "text/plain" ∧
    (FileData.mk [255] "text/plain" true).readable = true ∧
    utf8Decode [255] = none ∧
    generate_html "/data" ["f.txt"] (FileData.mk [255] "text/plain" true) true =
      Except.ok (card_no_preview "f.txt" "text/plain", ["Failed to decode /data/f.txt"]) := by
  refine ⟨rfl, rfl, by decide, ?_⟩
  exact C6_undecodable_text_no_preview "/data" ["f.txt"]
    (FileData.mk [255] "text/plain" true) true rfl rfl (by decide)

/-- C7: with a readable file, the preview branch is decided solely by the
detected type: a type in the video set embeds a video referencing the
relative path with the type as media hint, a type in the image set embeds
an image referencing the relative path, and any other type except
text/plain produces no preview, while the link and type label are present
in the card in every case. -/
theorem C7_preview_by_type (S : String) (rel : List String) (d : FileData) (v : Bool)
    (hr : d.readable = true) :
    (d.mime ∈ VIDEO_MIME_TYPES →
      generate_html S rel d v =
        Except.ok (card_with_preview (pathStr rel) d.mime
          (get_html_video (pathStr rel) d.mime), [])) ∧
    (d.mime ∈ IMAGE_MIME_TYPES →
      generate_html S rel d v =
        Except.ok (card_with_preview (pathStr rel) d.mime (get_html_image (pathStr rel)), [])) ∧
    (d.mime ∉ VIDEO_MIME_TYPES → d.mime ∉ IMAGE_MIME_TYPES → d.mime ≠ "text/plain" →
      generate_html S rel d v = Except.ok (card_no_preview (pathStr rel) d.mime, [])) := by
  refine ⟨fun h => ?_, fun h => ?_, fun h2 h3 h1 => ?_⟩
  · simp [generate_html, hr, file_card_video S rel d v h]
  · simp [generate_html, hr, file_card_image S rel d v h]
  · simp [generate_html, hr, file_card_no_preview S rel d v h1 h2 h3]

theorem C7_witness :
    (FileData.mk [] "video/mp4" true).readable = true ∧
    "video/mp4" ∈ VIDEO_MIME_TYPES ∧
    generate_html "/data" ["clip.mp4"] (FileData.mk [] "video/mp4" true) false =
      Except.ok (card_with_preview "clip.mp4" "video/mp4"
        (get_html_video "clip.mp4" "video/mp4"), []) := by
  refine ⟨rfl, by decide, ?_⟩
  exact (C7_preview_by_type "/data" ["clip.mp4"] (FileData.mk [] "video/mp4" true) false
    rfl).1 (by decide)

/-- C3: the program embeds a text/plain preview into the HTML page without
escaping it.  Evaluated at a readable text/plain file whose content is the
markup string containing a bold tag, the emitted preview content equals
the raw text and is not its HTML-escaped form, so file content can inject
markup; the particular content "hello\nworld" survives unchanged only
because escaping is the identity on it. -/
theorem C3_text_preview_unescaped :
    generate_html "/data" ["f.txt"]
        (FileData.mk ("<b>hi</b>".data.map Char.toNat) "text/plain" true) false =
      Except.ok (card_with_preview "f.txt" "text/plain"
        (get_html_text_plain "<b>hi</b>"), []) ∧
    htmlEscape "<b>hi</b>" ≠ "<b>hi</b>" ∧
    generate_html "/data" ["g.txt"]
        (FileData.mk ("hello\nworld".data.map Char.toNat) "text/plain" true) false =
      Except.ok (card_with_preview "g.txt" "text/plain"
        (get_html_text_plain "hello\nworld"), []) ∧
    htmlEscape "hello\nworld" = "hello\nworld" := by
  refine ⟨rfl, by decide, rfl, by decide⟩

/-- C5: on a tree whose scan root contains a symlinked subdirectory that
points back at the root, the unguarded recursion of read_files does not
complete within any amount of fuel: the recursive scan never terminates. -/
theorem C5_cyclic_symlink_diverges (fuel : Nat) :
    scan_fuel (fun _ => [CChild.cdir "loop" 0]) fuel [CChild.cdir "loop" 0] = none := by
  induction fuel with
  | zero => simp [scan_fuel]
  | succ n ih => simp [scan_fuel, ih]

/-- Sanity check of the fuel model: on an acyclic filesystem the same
recursion completes once the fuel exceeds the nesting depth. -/
theorem scan_fuel_acyclic_completes :
    scan_fuel (fun _ => [CChild.cfile "a" (FileData.mk [] "" true)]) 1 [CChild.cdir "d" 0] =
      some [["d", "a"]] := by
  simp [scan_fuel]

/-- C1: for a directory tree containing only regular files (no
subdirectories, all readable), the page built by the index route is the
fixed header, then exactly one card per discovered file with the cards in
ascending path order, then the fixed footer. -/
theorem C1_flat_tree_one_sorted_card_per_file (es : List Entry) (S : String) (r v : Bool)
    (hf : ∀ e ∈ es, e.isFile = true)
    (hr : ∀ e ∈ es, entryReadable e = true) :
    ∃ l ds,
      l.Perm (es.filterMap (entryFlat [])) ∧
      List.Pairwise (fun x y => pathLE x.1 y.1 = true) l ∧
      index (Root.dir es) S r v =
        Except.ok (HTML_HEAD ++ concatAll (l.map fun x => (file_card S x.1 x.2 v).1)
          ++ HTML_FOOT, ds) := by
  have hflat := read_files_aux_flat r v S [] es hf
  have hread : ∀ x ∈ sortFiles (es.filterMap (entryFlat [])), x.2.readable = true := by
    intro x hx
    have hx2 : x ∈ es.filterMap (entryFlat []) :=
      (sortFiles_perm (es.filterMap (entryFlat []))).mem_iff.mp hx
    rcases List.mem_filterMap.mp hx2 with ⟨e, he, hee⟩
    cases e with
    | file n d =>
      have hxd : x = ([n], d) := by simpa [entryFlat] using hee.symm
      have := hr _ he
      simp [hxd, entryReadable] at this ⊢
      exact this
    | dir n ch => simp [entryFlat] at hee
    | other n => simp [entryFlat] at hee
  have hro := render_all_ok S v (sortFiles (es.filterMap (entryFlat []))) hread
  refine ⟨sortFiles (es.filterMap (entryFlat [])),
    ((sortFiles (es.filterMap (entryFlat []))).map fun x => (file_card S x.1 x.2 v).2).flatten,
    sortFiles_perm _, sortFiles_sorted _, ?_⟩
  simp [index, read_files, hflat, hro]

theorem C1_witness :
    (∀ e ∈ [Entry.file "b.txt" (FileData.mk [104, 105] "text/plain" true),
            Entry.file "a.png" (FileData.mk [] "image/png" true)], e.isFile = true) ∧
    (∀ e ∈ [Entry.file "b.txt" (FileData.mk [104, 105] "text/plain" true),
            Entry.file "a.png" (FileData.mk [] "image/png" true)], entryReadable e = true) ∧
    (∃ l ds,
      l.Perm ([Entry.file "b.txt" (FileData.mk [104, 105] "text/plain" true),
               Entry.file "a.png" (FileData.mk [] "image/png" true)].filterMap (entryFlat [])) ∧
      List.Pairwise (fun x y => pathLE x.1 y.1 = true) l ∧
      index (Root.dir [Entry.file "b.txt" (FileData.mk [104, 105] "text/plain" true),
                       Entry.file "a.png" (FileData.mk [] "image/png" true)]) "/data" false true =
        Except.ok (HTML_HEAD ++ concatAll (l.map fun x => (file_card "/data" x.1 x.2 true).1)
          ++ HTML_FOOT, ds)) := by
  refine ⟨?_, ?_, ?_⟩
  · intro e he
    rcases List.mem_cons.mp he with rfl | he
    · rfl
    · rcases List.mem_cons.mp he with rfl | he
      · rfl
      · exact absurd he (List.not_mem_nil e)
  · intro e he
    rcases List.mem_cons.mp he with rfl | he
    · rfl
    · rcases List.mem_cons.mp he with rfl | he
      · rfl
      · exact absurd he (List.not_mem_nil e)
  · refine C1_flat_tree_one_sorted_card_per_file _ "/data" false true ?_ ?_
    · intro e he
      rcases List.mem_cons.mp he with rfl | he
      · rfl
      · rcases List.mem_cons.mp he with rfl | he
        · rfl
        · exact absurd he (List.not_mem_nil e)
    · intro e he
      rcases List.mem_cons.mp he with rfl | he
      · rfl
      · rcases List.mem_cons.mp he with rfl | he
        · rfl
        · exact absurd he (List.not_mem_nil e)

